import Mathlib

/-!
Verification of the indexer's mutation-buffering and stream-control core.

The definitions below are a shallow embedding of
`secondary/indexer/mutation_queue_atomic.go` (the per-vbucket atomic
mutation queue and the snapshot-info container) and of the kvSender
fan-out logic.  Stateful Go code is rendered as explicit state passing:
each operation takes the queue value and returns the updated queue value
together with its result.
-/

namespace Indexing

/-! ## Data model for the mutation queue

In the Go source a `MutationKeys` record carries document/index payload
plus `meta.seqno`, the per-vbucket sequence number.  The queue never
inspects anything except `meta.seqno`, so the payload is abstracted to a
single `docid` field that gives distinct mutations their identity. -/

structure MutationMeta where
  seqno : Nat
deriving DecidableEq

structure MutationKeys where
  meta : MutationMeta
  docid : Nat
deriving DecidableEq

/-- One vbucket's queue of `atomicMutationQueue`.

The Go structure is a singly linked list with a sentinel: `head` points
at a node whose payload is *not* live (the initial sentinel, or the node
of the most recently dequeued mutation); the live elements are the
mutations of `head.next .. tail`, oldest first.

* `sentinelMut` is the `mutation` field of the node `head` points at
  (`nil`, i.e. `none`, for the initial sentinel);
* `elems` are the live mutations `head.next .. tail`, oldest first;
* `size` is the per-vbucket `size` counter (`int64`).

The per-vbucket free list (`free` / `allocNode` / `popFreeList`) only
recycles node storage strictly behind `head` — the popped node's
`mutation` and `next` fields are cleared before reuse — so it changes
neither the live element sequence, nor the head node's payload, nor the
size counter; it is therefore not represented in the state. -/
structure ShardQueue where
  sentinelMut : Option MutationKeys
  elems : List MutationKeys
  size : Int
deriving DecidableEq

def emptyShardQueue : ShardQueue := ⟨none, [], 0⟩

/-- The multi-queue: `numVbuckets` plus the per-vbucket queues.  Go
stores the per-vbucket state in arrays indexed by the (signed) vbucket
id; the model uses a total function on `Int`. -/
structure AtomicMutationQueue where
  numVbuckets : Nat
  shards : Int → ShardQueue

/-- `NewAtomicMutationQueue`: every vbucket starts with a fresh sentinel
node (payload `nil`) and size 0. -/
def NewAtomicMutationQueue (numVbuckets : Nat) : AtomicMutationQueue :=
  ⟨numVbuckets, fun _ => emptyShardQueue⟩

/-- The effect of `Enqueue` on one vbucket's queue: link a new node at
the tail and bump the size counter. -/
def enqueueShard (s : ShardQueue) (m : MutationKeys) : ShardQueue :=
  { s with elems := s.elems ++ [m], size := s.size + 1 }

/-- `atomicMutationQueue.Enqueue`: rejects a vbucket outside
`[0, numVbuckets)` with an error, otherwise appends at the tail of that
vbucket's queue and increments its size counter. -/
def Enqueue (q : AtomicMutationQueue) (m : MutationKeys) (vb : Int) :
    Except String AtomicMutationQueue :=
  if vb < 0 ∨ vb > (q.numVbuckets : Int) - 1 then
    Except.error "vbucket out of range"
  else
    Except.ok { q with
      shards := fun v => if v = vb then enqueueShard (q.shards v) m else q.shards v }

/-- The effect of `DequeueSingleElement` on one vbucket's queue: if
`head ≠ tail` the mutation of `head.next` is returned, `head` moves to
`head.next` (whose payload therefore becomes the new sentinel payload)
and the size counter is decremented; on an empty queue nothing changes
and `nil` is returned. -/
def dequeueSingleShard (s : ShardQueue) : Option MutationKeys × ShardQueue :=
  match s.elems with
  | [] => (none, s)
  | m :: rest => (some m, ⟨some m, rest, s.size - 1⟩)

/-- `atomicMutationQueue.DequeueSingleElement` on the multi-queue. -/
def DequeueSingleElement (q : AtomicMutationQueue) (vb : Int) :
    Option MutationKeys × AtomicMutationQueue :=
  let r := dequeueSingleShard (q.shards vb)
  (r.1, { q with shards := fun v => if v = vb then r.2 else q.shards v })

/-- `atomicMutationQueue.PeekHead`: when `head ≠ tail` the source
returns `head.mutation` — the payload of the node the head pointer
stands on (the sentinel / most recently dequeued node), *not*
`head.next.mutation`, the element `DequeueSingleElement` would return.
Returns `nil` on an empty queue. -/
def PeekHead (q : AtomicMutationQueue) (vb : Int) : Option MutationKeys :=
  let s := q.shards vb
  if s.elems ≠ [] then s.sentinelMut else none

/-- `atomicMutationQueue.PeekTail`: when `head ≠ tail` returns
`tail.mutation`, the most recently enqueued mutation; `nil` on an empty
queue. -/
def PeekTail (q : AtomicMutationQueue) (vb : Int) : Option MutationKeys :=
  let s := q.shards vb
  if s.elems ≠ [] then s.elems.getLast? else none

/-- `atomicMutationQueue.GetSize`: reads the per-vbucket size counter. -/
def GetSize (q : AtomicMutationQueue) (vb : Int) : Int :=
  (q.shards vb).size

/-- `atomicMutationQueue.GetNumVbuckets`. -/
def GetNumVbuckets (q : AtomicMutationQueue) : Nat :=
  q.numVbuckets

/-! ## dequeueUptoSeqno

`dequeueUptoSeqno` runs on a poll ticker.  Each tick drains the queue
while it is non-empty: the front mutation `m` is dequeued and sent iff
`seqno >= m.meta.seqno`, and the channel is closed (ending the call)
iff `seqno <= m.meta.seqno`.  When the inner loop exits with the queue
empty, the call closes the channel only if `dequeueCount == 0`, where
`dequeueCount` counts every mutation sent since the call began (it is
never reset between ticks); otherwise it keeps polling for ever (under
the assumption of this model that no further enqueues occur). -/

/-- One pass of the inner `for head != tail` loop of `dequeueUptoSeqno`
over the live elements.  Returns `(delivered, remaining, closed)`:
the mutations sent on the channel in order, the elements still queued,
and whether the channel was closed by the `seqno <= m.meta.seqno`
check. -/
def drainLoop (seqno : Nat) : List MutationKeys → List MutationKeys × List MutationKeys × Bool
  | [] => ([], [], false)
  | m :: rest =>
    if seqno ≥ m.meta.seqno then
      if seqno ≤ m.meta.seqno then
        ([m], rest, true)
      else
        let r := drainLoop seqno rest
        (m :: r.1, r.2.1, r.2.2)
    else
      ([], m :: rest, true)

/-- `atomicMutationQueue.dequeueUptoSeqno` on one vbucket's queue, with
no concurrent enqueues.  `some (delivered, q')` means the goroutine
closes the data channel after sending `delivered`, leaving the queue in
state `q'`; `none` means the goroutine never closes the channel: the
inner loop emptied the queue without the close condition firing, and
`dequeueCount ≠ 0`, so every further tick polls an empty queue with
`dequeueCount ≠ 0` and the loop spins for ever. -/
def dequeueUptoSeqnoShard (s : ShardQueue) (seqno : Nat) :
    Option (List MutationKeys × ShardQueue) :=
  let r := drainLoop seqno s.elems
  let delivered := r.1
  let s' : ShardQueue :=
    { sentinelMut :=
        match delivered.getLast? with
        | some m => some m
        | none => s.sentinelMut,
      elems := r.2.1,
      size := s.size - delivered.length }
  if r.2.2 then some (delivered, s')
  else if delivered.length = 0 then some ([], s')
  else none

/-! ## Composite per-shard experiments used by the claims -/

/-- Enqueue a list of mutations one by one on vbucket `vb`, stopping at
the first error. -/
def enqueueList (q : AtomicMutationQueue) (vb : Int) :
    List MutationKeys → Except String AtomicMutationQueue
  | [] => Except.ok q
  | m :: rest =>
    match Enqueue q m vb with
    | Except.ok q' => enqueueList q' vb rest
    | Except.error e => Except.error e

/-- Perform `n` successive `DequeueSingleElement` calls on vbucket `vb`,
collecting the returned values in order. -/
def dequeueN (vb : Int) : Nat → AtomicMutationQueue → List (Option MutationKeys) × AtomicMutationQueue
  | 0, q => ([], q)
  | n + 1, q =>
    let r := DequeueSingleElement q vb
    let r2 := dequeueN vb n r.2
    (r.1 :: r2.1, r2.2)

/-! ## Snapshot-info container

`snapshotInfoContainer` wraps a `container/list.List` of `SnapshotInfo`
values, front = newest.  `SnapshotInfo`, `common.TsVbuuid` and
`getStabilityTSFromTsVbuuid` are declared outside the provided sources;
following the spec, a snapshot entry is represented by its per-shard
stability timestamp (a tuple of sequence numbers) plus opaque metadata,
and timestamps are compared elementwise. -/

/-- Modelled from the spec: a snapshot-info entry is `{timestamp, opaque
metadata}`; the timestamp as used by the container is the per-shard
stability timestamp extracted by `getStabilityTSFromTsVbuuid` (not in
src/), modelled as a list of per-shard sequence numbers; `info` stands
for the opaque metadata and gives entries identity. -/
structure SnapshotInfo where
  ts : List Nat
  info : Nat
deriving DecidableEq

/-- Modelled from the spec: `Timestamp.GreaterThanEqual` (not in src/)
compares stability timestamps "elementwise ≥". -/
def tsGreaterThanEqual (a b : List Nat) : Bool :=
  (a.zip b).all fun p => p.2 ≤ p.1

/-- Modelled from the spec: `Timestamp.GreaterThan` (not in src/)
compares stability timestamps "elementwise >". -/
def tsGreaterThan (a b : List Nat) : Bool :=
  (a.zip b).all fun p => p.2 < p.1

/-- `snapshotInfoContainer.GetOlderThanTS`.  The source loop walks from
the front (newest) entry, but its body either returns the entry (when
`ts.GreaterThanEqual(snapTs)`) or executes `break` — so only the front
entry is ever examined: the function returns the newest entry when its
timestamp is ≤ the target, and `nil` otherwise. -/
def GetOlderThanTS (sc : List SnapshotInfo) (ts : List Nat) : Option SnapshotInfo :=
  match sc with
  | [] => none
  | s :: _ => if tsGreaterThanEqual ts s.ts then some s else none

/-- `snapshotInfoContainer.RemoveRecentThanTS`.  The source iterates
`for e := Front(); e != nil; e = e.Next()` and calls
`snapshotList.Remove(e)` on every entry newer than the target.  Go's
`container/list.List.Remove` sets the removed element's `next` pointer
to `nil`, so after the first removal `e.Next()` yields `nil` and the
loop exits: entries are kept until the first one strictly newer than the
target, that one entry is removed, and the scan stops there. -/
def RemoveRecentThanTS (sc : List SnapshotInfo) (ts : List Nat) : List SnapshotInfo :=
  match sc with
  | [] => []
  | s :: rest =>
    if tsGreaterThan s.ts ts then rest
    else s :: RemoveRecentThanTS rest ts

/-- `snapshotInfoContainer.RemoveOldest`: takes the back (oldest)
element, removes it when present, and always returns a `nil` error.
The result pairs the returned error with the updated list. -/
def RemoveOldest : List SnapshotInfo → Option String × List SnapshotInfo
  | [] => (none, [])
  | s :: rest => (none, (s :: rest).dropLast)

/-! ## kvSender fan-out and retry logic

The kvSender file drives each control-plane operation as: resolve
projector addresses, then run a closure `fn` under
`c.NewRetryHelper(MAX_KV_REQUEST_RETRY, time.Second, BACKOFF_FACTOR, fn).Run()`,
then classify the final error/state into one terminal message on the
response channel.  The per-producer network results are the model's
input: a function from attempt number to the list of per-producer
outcomes of that attempt's fan-out (`execWithStopCh` cancellation is not
exercised by the claims and is not modelled). -/

/-- Modelled from the spec: `protobuf.TsVbuuid` and its helpers are not
under src/.  Per the spec a stream timestamp is a per-bucket, per-shard
tuple of sequence data; `vbEntries` maps each vbucket number it covers
to a sequence number (epoch/uuid and snapshot bounds are carried along
in Go but never inspected by the fan-out logic, so they are elided). -/
structure ProtoTsVbuuid where
  bucket : String
  vbEntries : List (Nat × Nat)
deriving DecidableEq

/-- `TsVbuuid.IsEmpty`: a timestamp covering no vbuckets. -/
def ProtoTsVbuuid.IsEmpty (ts : ProtoTsVbuuid) : Bool :=
  ts.vbEntries.isEmpty

/-- `TsVbuuid.Len`: the number of vbuckets the timestamp covers. -/
def ProtoTsVbuuid.Len (ts : ProtoTsVbuuid) : Nat :=
  ts.vbEntries.length

/-- `TsVbuuid.Clone`. -/
def ProtoTsVbuuid.Clone (ts : ProtoTsVbuuid) : ProtoTsVbuuid :=
  ts

/-- Modelled from the spec: `TsVbuuid.Union` combines two timestamps of
the same bucket "taking, per shard, the entry with the higher sequence
number". -/
def unionVbEntries (a b : List (Nat × Nat)) : List (Nat × Nat) :=
  (a.map fun p =>
    match b.find? (fun q => q.1 == p.1) with
    | some q => (p.1, max p.2 q.2)
    | none => p) ++
  b.filter fun q => !(a.any fun p => p.1 == q.1)

/-- `TsVbuuid.Union` on the model. -/
def ProtoTsVbuuid.Union (a b : ProtoTsVbuuid) : ProtoTsVbuuid :=
  ⟨a.bucket, unionVbEntries a.vbEntries b.vbEntries⟩

/-- `protobuf.TopicResponse`: the per-producer reply to a
MutationTopicRequest, carrying the producer's active timestamps and
rollback timestamps (entries may be `nil`). -/
structure TopicResponse where
  activeTimestamps : List (Option ProtoTsVbuuid)
  rollbackTimestamps : List (Option ProtoTsVbuuid)
deriving DecidableEq

/-- Loop body shared verbatim by `updateActiveTsFromResponse` and
`updateRollbackTsFromResponse`: a timestamp from the response list is
merged into the accumulator iff it is non-`nil`, non-empty and for the
target bucket — cloned if the accumulator is `nil`, unioned
otherwise. -/
def tsMergeStep (bucket : String) (acc : Option ProtoTsVbuuid)
    (t : Option ProtoTsVbuuid) : Option ProtoTsVbuuid :=
  match t with
  | some ts =>
    if !ts.IsEmpty && ts.bucket == bucket then
      match acc with
      | none => some ts.Clone
      | some r => some (r.Union ts)
    else acc
  | none => acc

/-- `updateActiveTsFromResponse`: folds the response's active
timestamps for the bucket into the running active timestamp. -/
def updateActiveTsFromResponse (bucket : String) (activeTs : Option ProtoTsVbuuid)
    (res : TopicResponse) : Option ProtoTsVbuuid :=
  res.activeTimestamps.foldl (tsMergeStep bucket) activeTs

/-- `updateRollbackTsFromResponse`: folds the response's rollback
timestamps for the bucket into the running rollback timestamp. -/
def updateRollbackTsFromResponse (bucket : String) (rollbackTs : Option ProtoTsVbuuid)
    (res : TopicResponse) : Option ProtoTsVbuuid :=
  res.rollbackTimestamps.foldl (tsMergeStep bucket) rollbackTs

/-- The closure state of `openMutationStream`: the `activeTs` and
`rollbackTs` variables declared outside `fn`, which persist across
retry attempts. -/
structure OpenStreamState where
  activeTs : Option ProtoTsVbuuid
  rollbackTs : Option ProtoTsVbuuid
deriving DecidableEq

/-- One per-producer step of `openMutationStream`'s fan-out loop: an
error from `sendMutationTopicRequest` overwrites the accumulated `err`,
a response merges into `activeTs` and `rollbackTs`. -/
def openFanoutStep (bucket : String) (acc : OpenStreamState × Option String)
    (r : Except String TopicResponse) : OpenStreamState × Option String :=
  match r with
  | Except.error e => (acc.1, some e)
  | Except.ok res =>
    ({ activeTs := updateActiveTsFromResponse bucket acc.1.activeTs res,
       rollbackTs := updateRollbackTsFromResponse bucket acc.1.rollbackTs res }, acc.2)

/-- One attempt of `openMutationStream`'s `fn`: fan out over the
producers' outcomes `resps`, then return `nil` if a rollback timestamp
has been observed (no retry for rollback), else the accumulated error
if any, else check that the unioned active timestamp covers all
`numVbs` vbuckets, returning `ErrPartialVbStart` when it does not. -/
def openStreamFn (bucket : String) (numVbs : Nat)
    (resps : List (Except String TopicResponse)) (st : OpenStreamState) :
    OpenStreamState × Option String :=
  let r := resps.foldl (openFanoutStep bucket) (st, none)
  if r.1.rollbackTs.isSome then (r.1, none)
  else
    match r.2 with
    | some e => (r.1, some e)
    | none =>
      match r.1.activeTs with
      | none => (r.1, some "ErrPartialVbStart")
      | some a => if a.Len ≠ numVbs then (r.1, some "ErrPartialVbStart") else (r.1, none)

/-- `MAX_KV_REQUEST_RETRY`. -/
def MAX_KV_REQUEST_RETRY : Nat := 3

/-- Modelled from the spec: `c.NewRetryHelper(...).Run()` is not under
src/.  Per the spec, the operation function is retried up to
`MAX_KV_REQUEST_RETRY` attempts (with backoff, which has no observable
effect here): an attempt returning no error ends the loop, an attempt
returning an error is retried until the budget is exhausted, in which
case the final attempt's error is surfaced.  `retryRun step budget idx st`
returns the final closure state, the surfaced error, and the number of
attempts executed; `idx` numbers the attempts handed to `step`. -/
def retryRun {σ : Type} (step : Nat → σ → σ × Option String) :
    Nat → Nat → σ → σ × Option String × Nat
  | 0, _, st => (st, none, 0)
  | 1, idx, st =>
    let r := step idx st
    (r.1, r.2, 1)
  | budget + 2, idx, st =>
    let r := step idx st
    match r.2 with
    | none => (r.1, none, 1)
    | some _ =>
      let r2 := retryRun step (budget + 1) (idx + 1) r.1
      (r2.1, r2.2.1, r2.2.2 + 1)

/-- The terminal messages a kvSender operation can push on its response
channel: `MsgSuccess`, `MsgRollback` (carrying the rollback timestamp)
or a FATAL `MsgError`. -/
inductive KVMsg where
  | success : KVMsg
  | rollback : ProtoTsVbuuid → KVMsg
  | fatalError : String → KVMsg
deriving DecidableEq

/-- `kvSender.openMutationStream` from the fan-out onwards (topology
and restart-timestamp resolution succeed; `rounds i` gives the
per-producer outcomes of attempt `i`).  After the retry loop the final
outcome is classified: a non-`nil` `rollbackTs` yields `MsgRollback`
carrying it (the source converts it to native format, which renames no
data), else a non-`nil` error yields a FATAL `MsgError`, else
`MsgSuccess`.  The second component is the number of attempts run. -/
def openMutationStream (bucket : String) (numVbs : Nat)
    (rounds : Nat → List (Except String TopicResponse)) : KVMsg × Nat :=
  let r := retryRun (fun i st => openStreamFn bucket numVbs (rounds i) st)
    MAX_KV_REQUEST_RETRY 0 ⟨none, none⟩
  (match r.1.rollbackTs with
   | some rb => KVMsg.rollback rb
   | none =>
     match r.2.1 with
     | some e => KVMsg.fatalError e
     | none => KVMsg.success,
   r.2.2)

/-- Whether a (possibly `nil`) timestamp passes the merge filter of
`updateRollbackTsFromResponse` for the bucket: non-`nil`, non-empty and
naming the bucket. -/
def tsContributes (bucket : String) (t : Option ProtoTsVbuuid) : Bool :=
  match t with
  | some ts => !ts.IsEmpty && ts.bucket == bucket
  | none => false

/-- Whether a producer's outcome contributes a rollback timestamp for
the bucket. -/
def responseContributesRollback (bucket : String)
    (r : Except String TopicResponse) : Bool :=
  match r with
  | Except.ok res => res.rollbackTimestamps.any (tsContributes bucket)
  | Except.error _ => false

/-- Whether any producer outcome of a fan-out round contributes a
rollback timestamp for the bucket. -/
def roundContributesRollback (bucket : String)
    (resps : List (Except String TopicResponse)) : Bool :=
  resps.any (responseContributesRollback bucket)

/-- Modelled from the spec: `projClient.ErrorTopicMissing` is not under
src/; it is a distinguished error value compared by its message, so any
fixed string will do. -/
def ErrorTopicMissing : String := "Topic Missing"

/-- One per-producer step of the fan-out loop shared by
`deleteIndexesFromStream`, `deleteBucketsFromStream` and
`closeMutationStream`: an error equal to `ErrorTopicMissing` is treated
as success (logged and dropped), any other error overwrites the
accumulated `err`. -/
def removalFanoutStep (err : Option String) (r : Option String) : Option String :=
  match r with
  | some e => if e == ErrorTopicMissing then err else some e
  | none => err

/-- One attempt of the removal/close operations' `fn` over the
producers' outcomes. -/
def removalRoundErr (resps : List (Option String)) : Option String :=
  resps.foldl removalFanoutStep none

/-- One per-producer step of `addIndexForExistingBucket`'s fan-out
loop: every error — topic-missing included — overwrites the accumulated
`err`. -/
def addFanoutStep (err : Option String) (r : Option String) : Option String :=
  match r with
  | some e => some e
  | none => err

/-- One attempt of `addIndexForExistingBucket`'s `fn` over the
producers' outcomes. -/
def addRoundErr (resps : List (Option String)) : Option String :=
  resps.foldl addFanoutStep none

/-- The retry loop for the operations whose `fn` keeps no cross-attempt
state (add/remove/close): returns the surfaced error and the number of
attempts run. -/
def retryRunErrOnly (stepErr : Nat → Option String) : Option String × Nat :=
  let r := retryRun (fun i (_ : Unit) => ((), stepErr i)) MAX_KV_REQUEST_RETRY 0 ()
  (r.2.1, r.2.2)

/-- `kvSender.deleteIndexesFromStream` from the fan-out onwards: a
surviving error after the retry loop yields a FATAL `MsgError`,
otherwise `MsgSuccess`.  The second component is the number of attempts
run. -/
def deleteIndexesFromStream (rounds : Nat → List (Option String)) : KVMsg × Nat :=
  let r := retryRunErrOnly fun i => removalRoundErr (rounds i)
  (match r.1 with
   | some e => KVMsg.fatalError e
   | none => KVMsg.success, r.2)

/-- `kvSender.deleteBucketsFromStream` from the fan-out onwards; its
`fn` has the same shape as `deleteIndexesFromStream`'s. -/
def deleteBucketsFromStream (rounds : Nat → List (Option String)) : KVMsg × Nat :=
  let r := retryRunErrOnly fun i => removalRoundErr (rounds i)
  (match r.1 with
   | some e => KVMsg.fatalError e
   | none => KVMsg.success, r.2)

/-- `kvSender.closeMutationStream` from the fan-out onwards; its `fn`
has the same shape as `deleteIndexesFromStream`'s. -/
def closeMutationStream (rounds : Nat → List (Option String)) : KVMsg × Nat :=
  let r := retryRunErrOnly fun i => removalRoundErr (rounds i)
  (match r.1 with
   | some e => KVMsg.fatalError e
   | none => KVMsg.success, r.2)

/-- `kvSender.addIndexForExistingBucket` from the fan-out onwards. -/
def addIndexForExistingBucket (rounds : Nat → List (Option String)) : KVMsg × Nat :=
  let r := retryRunErrOnly fun i => addRoundErr (rounds i)
  (match r.1 with
   | some e => KVMsg.fatalError e
   | none => KVMsg.success, r.2)

/-- Whether every producer error of a fan-out round is the
topic-missing error (producers that succeeded report `none`). -/
def allTopicMissing (resps : List (Option String)) : Bool :=
  resps.all fun r =>
    match r with
    | none => true
    | some e => e == ErrorTopicMissing

/-! ## Concrete inputs used by counterexamples and witnesses -/

/-- A producer response carrying a non-empty rollback timestamp for
bucket "b". -/
def rollbackResponse : TopicResponse := ⟨[], [some ⟨"b", [(0, 5)]⟩]⟩

/-- Every attempt's fan-out consists of one producer reporting the
rollback response. -/
def rollbackRounds : Nat → List (Except String TopicResponse) :=
  fun _ => [Except.ok rollbackResponse]

/-- Every attempt's fan-out consists of one producer reporting the
topic-missing error. -/
def topicMissingRounds : Nat → List (Option String) :=
  fun _ => [some ErrorTopicMissing]

def mutA : MutationKeys := ⟨⟨1⟩, 100⟩
def mutB : MutationKeys := ⟨⟨2⟩, 101⟩

def mutSeq1 : MutationKeys := ⟨⟨1⟩, 1⟩
def mutSeq2a : MutationKeys := ⟨⟨2⟩, 2⟩
def mutSeq2b : MutationKeys := ⟨⟨2⟩, 3⟩
def mutSeq3 : MutationKeys := ⟨⟨3⟩, 4⟩
def mutSeq5 : MutationKeys := ⟨⟨5⟩, 5⟩

/-- A shard queue holding mutations with sequence numbers [1,2,2,3,5]
in FIFO order. -/
def shard12235 : ShardQueue := ⟨none, [mutSeq1, mutSeq2a, mutSeq2b, mutSeq3, mutSeq5], 5⟩

def snapT3 : SnapshotInfo := ⟨[3], 3⟩
def snapT2 : SnapshotInfo := ⟨[2], 2⟩
def snapT1 : SnapshotInfo := ⟨[1], 1⟩

/-- Snapshot ledger holding entries with timestamps T3 > T2 > T1,
newest-first. -/
def ledger321 : List SnapshotInfo := [snapT3, snapT2, snapT1]

end Indexing

namespace Indexing

/-! ## Theorems for the mutation queue claims that evaluate directly -/

/-- C2: on a shard queue holding sequence numbers [1,2,2,3,5],
`dequeueUptoSeqno` with watermark 2 delivers only the mutations with
sequence numbers 1 and 2 (the first of the two seqno-2 mutations) and
then closes the channel, leaving the second seqno-2 mutation queued —
the `seqno <= m.meta.seqno` check fires on the first mutation whose
seqno equals the watermark, contradicting the function's own comment
that it terminates on a seqno strictly higher than the argument "to
allow for multiple mutations with same seqno". -/
theorem dequeueUptoSeqno_stops_at_equal_seqno :
    dequeueUptoSeqnoShard shard12235 2 =
      some ([mutSeq1, mutSeq2a], ⟨some mutSeq2a, [mutSeq2b, mutSeq3, mutSeq5], 3⟩) := by
  decide

/-- C4 counterexample: a shard queue holding a single mutation with
sequence number 1 and watermark 5: the mutation (below the watermark) is
delivered, the queue empties, and — because `dequeueCount ≠ 0` — the
goroutine never closes the channel (`none`), refuting the claim that
the call terminates once the queue empties even when some mutations
were already delivered. -/
theorem dequeueUptoSeqno_nonterminating_after_partial_drain :
    dequeueUptoSeqnoShard ⟨none, [mutSeq1], 1⟩ 5 = none := by
  decide

/-- C7: after enqueuing a single mutation on a fresh queue, `PeekHead`
returns `nil` (the sentinel node's payload) while the next
`DequeueSingleElement` returns the enqueued mutation — the source reads
`head.mutation` instead of `head.next.mutation`, so `PeekHead` never
sees the oldest live element.  `PeekTail` does return the most recently
enqueued mutation. -/
theorem peekHead_returns_sentinel :
    (Enqueue (NewAtomicMutationQueue 1) mutA 0).map
        (fun q => (PeekHead q 0, (DequeueSingleElement q 0).1, PeekTail q 0)) =
      Except.ok (none, some mutA, some mutA) := by
  rfl

/-! ## Theorems for the snapshot-info container claims -/

/-- C5: on the ledger [T3, T2, T1] (newest-first) the target timestamp
T2 has a matching entry (the T2 entry itself satisfies the elementwise
≥ comparison), yet `GetOlderThanTS` returns `nil`: the `break` in the
scan loop stops at the newest entry T3, which is newer than the target,
so the matching entries behind it are never examined. -/
theorem getOlderThanTS_misses_match :
    GetOlderThanTS ledger321 snapT2.ts = none ∧
      tsGreaterThanEqual snapT2.ts snapT2.ts = true := by
  decide

/-- C6: on the ledger [T3, T2, T1] (newest-first), removing entries
newer than T1 removes only T3: Go's `container/list.Remove` nils the
removed element's `next` link, so the iteration stops after the first
removal and the (also newer) T2 entry survives. -/
theorem removeRecentThanTS_removes_only_first :
    RemoveRecentThanTS ledger321 snapT1.ts = [snapT2, snapT1] := by
  decide

/-- C10: `RemoveOldest` never reports an error — on the empty ledger it
leaves the ledger empty and unchanged, and on any ledger it removes
exactly the back (oldest) entry, i.e. the result is `dropLast` of the
input. -/
theorem removeOldest_total :
    RemoveOldest ([] : List SnapshotInfo) = (none, []) ∧
      ∀ sc : List SnapshotInfo,
        (RemoveOldest sc).1 = none ∧ (RemoveOldest sc).2 = sc.dropLast := by
  refine ⟨rfl, ?_⟩
  intro sc
  cases sc with
  | nil => exact ⟨rfl, rfl⟩
  | cons s rest => exact ⟨rfl, rfl⟩

/-! ## FIFO and size bookkeeping of the per-vbucket queue -/

/-- Enqueuing a list of mutations on a valid vbucket succeeds and
appends exactly that list at the tail of the vbucket's queue, adding
its length to the size counter and leaving the sentinel payload
alone. -/
theorem enqueueList_ok (L : List MutationKeys) :
    ∀ (q : AtomicMutationQueue) (vb : Int), 0 ≤ vb → vb < (q.numVbuckets : Int) →
    ∃ q', enqueueList q vb L = Except.ok q' ∧
      q'.numVbuckets = q.numVbuckets ∧
      (q'.shards vb).sentinelMut = (q.shards vb).sentinelMut ∧
      (q'.shards vb).elems = (q.shards vb).elems ++ L ∧
      (q'.shards vb).size = (q.shards vb).size + L.length := by
  induction L with
  | nil =>
    intro q vb h0 h1
    exact ⟨q, rfl, rfl, rfl, by simp, by simp⟩
  | cons m rest ih =>
    intro q vb h0 h1
    have hcond : ¬(vb < 0 ∨ vb > (q.numVbuckets : Int) - 1) := by omega
    have henq : Enqueue q m vb = Except.ok
        { q with shards := fun v => if v = vb then enqueueShard (q.shards v) m else q.shards v } := by
      simp [Enqueue, hcond]
    obtain ⟨q', hlist, hnum, hsent, helems, hsize⟩ :=
      ih { q with shards := fun v => if v = vb then enqueueShard (q.shards v) m else q.shards v }
        vb h0 h1
    refine ⟨q', ?_, hnum, ?_, ?_, ?_⟩
    · simp only [enqueueList, henq]
      exact hlist
    · rw [hsent]; simp [enqueueShard]
    · rw [helems]; simp [enqueueShard]
    · rw [hsize]; simp only [enqueueShard]
      simp
      ring

/-- `M` successive `DequeueSingleElement` calls on a vbucket holding at
least `M` elements return the first `M` queued mutations in FIFO order,
leave the remaining elements queued, and subtract `M` from the size
counter. -/
theorem dequeueN_take (M : Nat) :
    ∀ (q : AtomicMutationQueue) (vb : Int), M ≤ (q.shards vb).elems.length →
    (dequeueN vb M q).1 = ((q.shards vb).elems.take M).map some ∧
    ((dequeueN vb M q).2.shards vb).elems = (q.shards vb).elems.drop M ∧
    ((dequeueN vb M q).2.shards vb).size = (q.shards vb).size - M ∧
    (dequeueN vb M q).2.numVbuckets = q.numVbuckets := by
  induction M with
  | zero =>
    intro q vb _
    exact ⟨by simp [dequeueN], by simp [dequeueN], by simp [dequeueN], rfl⟩
  | succ M ih =>
    intro q vb h
    cases hel : (q.shards vb).elems with
    | nil => rw [hel] at h; simp at h
    | cons m rest =>
      have h1v : (DequeueSingleElement q vb).1 = some m := by
        simp [DequeueSingleElement, dequeueSingleShard, hel]
      have h2shard : ((DequeueSingleElement q vb).2).shards vb =
          ⟨some m, rest, (q.shards vb).size - 1⟩ := by
        simp [DequeueSingleElement, dequeueSingleShard, hel]
      have h2num : ((DequeueSingleElement q vb).2).numVbuckets = q.numVbuckets := by
        simp [DequeueSingleElement]
      have hM : M ≤ (((DequeueSingleElement q vb).2).shards vb).elems.length := by
        rw [h2shard]
        rw [hel] at h
        simpa using Nat.le_of_succ_le_succ h
      obtain ⟨ih1, ih2, ih3, ih4⟩ := ih ((DequeueSingleElement q vb).2) vb hM
      refine ⟨?_, ?_, ?_, ?_⟩
      · show (DequeueSingleElement q vb).1 :: (dequeueN vb M (DequeueSingleElement q vb).2).1 =
          ((m :: rest).take (M + 1)).map some
        rw [h1v, ih1, h2shard]
        simp
      · show ((dequeueN vb M (DequeueSingleElement q vb).2).2.shards vb).elems =
          (m :: rest).drop (M + 1)
        rw [ih2, h2shard]
        simp
      · show ((dequeueN vb M (DequeueSingleElement q vb).2).2.shards vb).size =
          (q.shards vb).size - (M + 1 : Nat)
        rw [ih3, h2shard]
        push_cast
        ring
      · show (dequeueN vb M (DequeueSingleElement q vb).2).2.numVbuckets = q.numVbuckets
        rw [ih4, h2num]

/-- C1: strict per-shard FIFO.  For every valid vbucket id and every
sequence of enqueues E1..En performed on a fresh queue with no
concurrent dequeues, n successive `DequeueSingleElement` calls return
E1..En in exactly that order. -/
theorem fifo_per_shard (n : Nat) (vb : Int) (L : List MutationKeys)
    (h0 : 0 ≤ vb) (h1 : vb < (n : Int)) :
    ∃ q', enqueueList (NewAtomicMutationQueue n) vb L = Except.ok q' ∧
      (dequeueN vb L.length q').1 = L.map some := by
  obtain ⟨q', hlist, _, _, helems, _⟩ :=
    enqueueList_ok L (NewAtomicMutationQueue n) vb h0 h1
  have helems' : (q'.shards vb).elems = L := by
    simpa [NewAtomicMutationQueue, emptyShardQueue] using helems
  have hlen : L.length ≤ (q'.shards vb).elems.length := by rw [helems']
  obtain ⟨hd1, _, _, _⟩ := dequeueN_take L.length q' vb hlen
  refine ⟨q', hlist, ?_⟩
  rw [hd1, helems', List.take_length]

/-- Witness for `fifo_per_shard` at a concrete input: two enqueues on
vbucket 0 of a 1-vbucket queue come back in order. -/
theorem fifo_per_shard_witness :
    (0 : Int) ≤ 0 ∧ (0 : Int) < ((1 : Nat) : Int) ∧
      ∃ q', enqueueList (NewAtomicMutationQueue 1) 0 [mutA, mutB] = Except.ok q' ∧
        (dequeueN 0 [mutA, mutB].length q').1 = [mutA, mutB].map some :=
  ⟨by decide, by decide, fifo_per_shard 1 0 [mutA, mutB] (by decide) (by decide)⟩

/-- C9: size bookkeeping.  On a valid vbucket of a fresh queue, after N
enqueues `GetSize` reads N, and after M ≤ N further successful
dequeues it reads N − M; moreover every `Enqueue` adds one to the
counter, every `DequeueSingleElement` that removes an element subtracts
one, and a dequeue on an empty vbucket leaves the counter alone. -/
theorem size_consistency (n : Nat) (vb : Int) (L : List MutationKeys) (M : Nat)
    (h0 : 0 ≤ vb) (h1 : vb < (n : Int)) (hM : M ≤ L.length) :
    (∃ q', enqueueList (NewAtomicMutationQueue n) vb L = Except.ok q' ∧
      GetSize q' vb = L.length ∧
      GetSize (dequeueN vb M q').2 vb = (L.length : Int) - M) ∧
    (∀ (q q2 : AtomicMutationQueue) (m : MutationKeys),
      Enqueue q m vb = Except.ok q2 → GetSize q2 vb = GetSize q vb + 1) ∧
    (∀ q : AtomicMutationQueue, (q.shards vb).elems ≠ [] →
      GetSize (DequeueSingleElement q vb).2 vb = GetSize q vb - 1) ∧
    (∀ q : AtomicMutationQueue, (q.shards vb).elems = [] →
      GetSize (DequeueSingleElement q vb).2 vb = GetSize q vb) := by
  refine ⟨?_, ?_, ?_, ?_⟩
  · obtain ⟨q', hlist, _, _, helems, hsize⟩ :=
      enqueueList_ok L (NewAtomicMutationQueue n) vb h0 h1
    have helems' : (q'.shards vb).elems = L := by
      simpa [NewAtomicMutationQueue, emptyShardQueue] using helems
    have hsize' : (q'.shards vb).size = L.length := by
      simpa [NewAtomicMutationQueue, emptyShardQueue] using hsize
    have hlen : M ≤ (q'.shards vb).elems.length := by rw [helems']; exact hM
    obtain ⟨_, _, hd3, _⟩ := dequeueN_take M q' vb hlen
    exact ⟨q', hlist, by simpa [GetSize] using hsize',
      by rw [GetSize, hd3, hsize']⟩
  · intro q q2 m he
    by_cases hc : vb < 0 ∨ vb > (q.numVbuckets : Int) - 1
    · simp [Enqueue, hc] at he
    · simp [Enqueue, hc] at he
      rw [← he]
      simp [GetSize, enqueueShard]
  · intro q hne
    cases hel : (q.shards vb).elems with
    | nil => exact absurd hel hne
    | cons m rest =>
      simp [DequeueSingleElement, dequeueSingleShard, hel, GetSize]
  · intro q hel
    simp [DequeueSingleElement, dequeueSingleShard, hel, GetSize]

/-- Witness for `size_consistency` at a concrete input. -/
theorem size_consistency_witness :
    (0 : Int) ≤ 0 ∧ (0 : Int) < ((1 : Nat) : Int) ∧ 1 ≤ [mutA, mutB].length ∧
      ((∃ q', enqueueList (NewAtomicMutationQueue 1) 0 [mutA, mutB] = Except.ok q' ∧
        GetSize q' 0 = [mutA, mutB].length ∧
        GetSize (dequeueN 0 1 q').2 0 = ([mutA, mutB].length : Int) - 1) ∧
      (∀ (q q2 : AtomicMutationQueue) (m : MutationKeys),
        Enqueue q m 0 = Except.ok q2 → GetSize q2 0 = GetSize q 0 + 1) ∧
      (∀ q : AtomicMutationQueue, (q.shards 0).elems ≠ [] →
        GetSize (DequeueSingleElement q 0).2 0 = GetSize q 0 - 1) ∧
      (∀ q : AtomicMutationQueue, (q.shards 0).elems = [] →
        GetSize (DequeueSingleElement q 0).2 0 = GetSize q 0)) :=
  ⟨by decide, by decide, by decide,
    size_consistency 1 0 [mutA, mutB] 1 (by decide) (by decide) (by decide)⟩

/-! ## Termination behaviour of dequeueUptoSeqno -/

/-- The inner drain pass leaves the channel open (`closed = false`) iff
every queued mutation's seqno is strictly below the watermark. -/
theorem drainLoop_closed_iff (seqno : Nat) :
    ∀ l : List MutationKeys,
      (drainLoop seqno l).2.2 = false ↔ ∀ m ∈ l, m.meta.seqno < seqno := by
  intro l
  induction l with
  | nil => simp [drainLoop]
  | cons m rest ih =>
    by_cases h1 : seqno ≥ m.meta.seqno
    · by_cases h2 : seqno ≤ m.meta.seqno
      · simp only [drainLoop, if_pos h1, if_pos h2]
        simp only [List.mem_cons, forall_eq_or_imp]
        constructor
        · intro hfalse; exact absurd hfalse (by simp)
        · rintro ⟨hm, _⟩; omega
      · simp only [drainLoop, if_pos h1, if_neg h2]
        have hm : m.meta.seqno < seqno := by omega
        simp only [List.mem_cons, forall_eq_or_imp]
        rw [ih]
        simp [hm]
    · simp only [drainLoop, if_neg h1]
      simp only [List.mem_cons, forall_eq_or_imp]
      constructor
      · intro hfalse; exact absurd hfalse (by simp)
      · rintro ⟨hm, _⟩; omega

/-- When the inner drain pass does not close the channel, it has
delivered every queued element and left the queue empty. -/
theorem drainLoop_open_drains (seqno : Nat) :
    ∀ l : List MutationKeys, (drainLoop seqno l).2.2 = false →
      (drainLoop seqno l).1 = l ∧ (drainLoop seqno l).2.1 = [] := by
  intro l
  induction l with
  | nil => intro _; simp [drainLoop]
  | cons m rest ih =>
    intro h
    by_cases h1 : seqno ≥ m.meta.seqno
    · by_cases h2 : seqno ≤ m.meta.seqno
      · simp [drainLoop, h1, h2] at h
      · simp only [drainLoop, if_pos h1, if_neg h2] at h ⊢
        obtain ⟨ha, hb⟩ := ih h
        simp [ha, hb]
    · simp [drainLoop, h1] at h

/-- C4 (amended): with no further enqueues, `dequeueUptoSeqno` fails to
terminate exactly when the vbucket's queue is non-empty and every
queued mutation's seqno is strictly below the watermark: all of them
get delivered, the queue empties, and the goroutine polls for ever
because `dequeueCount ≠ 0`.  In every other case — in particular when
the queue is empty at the first poll, so that nothing was delivered —
the call closes its channel. -/
theorem dequeueUptoSeqno_termination_iff (s : ShardQueue) (seqno : Nat) :
    dequeueUptoSeqnoShard s seqno = none ↔
      (s.elems ≠ [] ∧ ∀ m ∈ s.elems, m.meta.seqno < seqno) := by
  by_cases hc : (drainLoop seqno s.elems).2.2 = true
  · simp only [dequeueUptoSeqnoShard, hc, if_true]
    constructor
    · intro hfalse; exact absurd hfalse (by simp)
    · rintro ⟨_, hall⟩
      rw [← drainLoop_closed_iff seqno s.elems] at hall
      rw [hall] at hc
      exact absurd hc (by simp)
  · have hc' : (drainLoop seqno s.elems).2.2 = false := by
      revert hc; cases (drainLoop seqno s.elems).2.2 <;> simp
    obtain ⟨hdel, _⟩ := drainLoop_open_drains seqno s.elems hc'
    by_cases hz : (drainLoop seqno s.elems).1.length = 0
    · have hnil : s.elems = [] := by
        rw [hdel] at hz
        exact List.eq_nil_of_length_eq_zero hz
      simp only [dequeueUptoSeqnoShard, hc', if_false, hz, if_true, Bool.false_eq_true]
      constructor
      · intro hfalse; exact absurd hfalse (by simp)
      · rintro ⟨hne, _⟩; exact absurd hnil hne
    · have hne : s.elems ≠ [] := by
        intro hnil
        apply hz
        rw [hdel, hnil]
        rfl
      have hall : ∀ m ∈ s.elems, m.meta.seqno < seqno :=
        (drainLoop_closed_iff seqno s.elems).mp hc'
      simp only [dequeueUptoSeqnoShard, hc', hz, if_false, Bool.false_eq_true]
      simp [hne]
      exact hall

/-! ## Rollback precedence in openMutationStream -/

/-- Merging any timestamp into an already non-`nil` accumulator keeps
it non-`nil`. -/
theorem tsMergeStep_mono (bucket : String) (acc t : Option ProtoTsVbuuid)
    (h : acc.isSome = true) : (tsMergeStep bucket acc t).isSome = true := by
  cases t with
  | none => exact h
  | some ts =>
    simp only [tsMergeStep]
    split
    · cases acc with
      | none => simp at h
      | some r => simp
    · exact h

/-- Merging a timestamp that passes the bucket filter makes the
accumulator non-`nil`. -/
theorem tsMergeStep_contrib (bucket : String) (acc t : Option ProtoTsVbuuid)
    (h : tsContributes bucket t = true) :
    (tsMergeStep bucket acc t).isSome = true := by
  cases t with
  | none => simp [tsContributes] at h
  | some ts =>
    simp only [tsContributes] at h
    simp only [tsMergeStep, h, if_true]
    cases acc <;> simp

/-- Folding timestamps never clears a non-`nil` accumulator. -/
theorem foldl_tsMerge_mono (bucket : String) :
    ∀ (l : List (Option ProtoTsVbuuid)) (acc : Option ProtoTsVbuuid),
      acc.isSome = true → ((l.foldl (tsMergeStep bucket) acc).isSome = true) := by
  intro l
  induction l with
  | nil => intro acc h; exact h
  | cons t rest ih =>
    intro acc h
    exact ih (tsMergeStep bucket acc t) (tsMergeStep_mono bucket acc t h)

/-- Folding a timestamp list containing a contributing entry yields a
non-`nil` accumulator. -/
theorem foldl_tsMerge_contrib (bucket : String) :
    ∀ (l : List (Option ProtoTsVbuuid)) (acc : Option ProtoTsVbuuid),
      l.any (tsContributes bucket) = true →
      ((l.foldl (tsMergeStep bucket) acc).isSome = true) := by
  intro l
  induction l with
  | nil => intro acc h; simp at h
  | cons t rest ih =>
    intro acc h
    rw [List.any_cons, Bool.or_eq_true] at h
    rcases h with h | h
    · exact foldl_tsMerge_mono bucket rest _ (tsMergeStep_contrib bucket acc t h)
    · exact ih _ h

/-- The fan-out fold of `openMutationStream` ends with a non-`nil`
rollback timestamp whenever some producer outcome contributes one or
the accumulated rollback timestamp was already non-`nil`. -/
theorem openFanoutFold_rollback (bucket : String) :
    ∀ (resps : List (Except String TopicResponse)) (st : OpenStreamState)
      (e0 : Option String),
      (roundContributesRollback bucket resps = true ∨ st.rollbackTs.isSome = true) →
      ((resps.foldl (openFanoutStep bucket) (st, e0)).1).rollbackTs.isSome = true := by
  intro resps
  induction resps with
  | nil =>
    intro st e0 h
    rcases h with h | h
    · simp [roundContributesRollback] at h
    · simpa using h
  | cons r rest ih =>
    intro st e0 h
    rw [List.foldl_cons]
    cases r with
    | error e =>
      apply ih
      rcases h with h | h
      · left
        rw [roundContributesRollback, List.any_cons, Bool.or_eq_true] at h
        rcases h with h | h
        · exact absurd h (by simp [responseContributesRollback])
        · exact h
      · right; simpa [openFanoutStep] using h
    | ok res =>
      by_cases hcr : res.rollbackTimestamps.any (tsContributes bucket) = true
      · apply ih
        right
        simpa [openFanoutStep, updateRollbackTsFromResponse] using
          foldl_tsMerge_contrib bucket res.rollbackTimestamps st.rollbackTs hcr
      · apply ih
        rcases h with h | h
        · left
          rw [roundContributesRollback, List.any_cons, Bool.or_eq_true] at h
          rcases h with h | h
          · exact absurd (by simpa [responseContributesRollback] using h) hcr
          · exact h
        · right
          simpa [openFanoutStep, updateRollbackTsFromResponse] using
            foldl_tsMerge_mono bucket res.rollbackTimestamps st.rollbackTs h

/-- An attempt of `openMutationStream`'s `fn` that observes a rollback
contribution (or starts with one already recorded) ends with a
non-`nil` rollback timestamp and returns `nil`, stopping the retry
loop. -/
theorem openStreamFn_rollback (bucket : String) (numVbs : Nat)
    (resps : List (Except String TopicResponse)) (st : OpenStreamState)
    (h : roundContributesRollback bucket resps = true ∨ st.rollbackTs.isSome = true) :
    ((openStreamFn bucket numVbs resps st).1.rollbackTs.isSome = true) ∧
    (openStreamFn bucket numVbs resps st).2 = none := by
  have hsome := openFanoutFold_rollback bucket resps st none h
  simp only [openStreamFn]
  rw [if_pos hsome]
  exact ⟨hsome, rfl⟩

/-- The retry loop around `openStreamFn`: if the attempt numbered
`idx + k` is executed and its fan-out round contributes a rollback
timestamp, the loop's final state records the rollback and the loop
stops with exactly `k + 1` attempts executed from `idx` on. -/
theorem retryRun_rollback_stop (bucket : String) (numVbs : Nat)
    (rounds : Nat → List (Except String TopicResponse)) :
    ∀ (budget idx : Nat) (st : OpenStreamState) (k : Nat),
      k < (retryRun (fun i s => openStreamFn bucket numVbs (rounds i) s) budget idx st).2.2 →
      roundContributesRollback bucket (rounds (idx + k)) = true →
      ((retryRun (fun i s => openStreamFn bucket numVbs (rounds i) s) budget idx st).1.rollbackTs.isSome = true ∧
       (retryRun (fun i s => openStreamFn bucket numVbs (rounds i) s) budget idx st).2.2 = k + 1) := by
  intro budget
  induction budget with
  | zero =>
    intro idx st k hk _
    simp [retryRun] at hk
  | succ b ih =>
    intro idx st k hk hc
    cases b with
    | zero =>
      simp only [retryRun] at hk ⊢
      have hk0 : k = 0 := by omega
      subst hk0
      rw [Nat.add_zero] at hc
      obtain ⟨hsome, herr⟩ := openStreamFn_rollback bucket numVbs (rounds idx) st (Or.inl hc)
      exact ⟨hsome, rfl⟩
    | succ b' =>
      cases hr : (openStreamFn bucket numVbs (rounds idx) st).2 with
      | none =>
        have hused : (retryRun (fun i s => openStreamFn bucket numVbs (rounds i) s)
            (b' + 2) idx st).2.2 = 1 := by
          simp only [retryRun, hr]
        rw [hused] at hk
        have hk0 : k = 0 := by omega
        subst hk0
        rw [Nat.add_zero] at hc
        obtain ⟨hsome, _⟩ := openStreamFn_rollback bucket numVbs (rounds idx) st (Or.inl hc)
        constructor
        · simp only [retryRun, hr]
          exact hsome
        · exact hused
      | some e =>
        cases k with
        | zero =>
          rw [Nat.add_zero] at hc
          obtain ⟨_, herr⟩ := openStreamFn_rollback bucket numVbs (rounds idx) st (Or.inl hc)
          rw [herr] at hr
          exact absurd hr (by simp)
        | succ j =>
          have hkrec : j < (retryRun (fun i s => openStreamFn bucket numVbs (rounds i) s)
              (b' + 1) (idx + 1) (openStreamFn bucket numVbs (rounds idx) st).1).2.2 := by
            have : (retryRun (fun i s => openStreamFn bucket numVbs (rounds i) s)
                (b' + 2) idx st).2.2 =
              (retryRun (fun i s => openStreamFn bucket numVbs (rounds i) s)
                (b' + 1) (idx + 1) (openStreamFn bucket numVbs (rounds idx) st).1).2.2 + 1 := by
              simp only [retryRun, hr]
            rw [this] at hk
            omega
          have hcrec : roundContributesRollback bucket (rounds ((idx + 1) + j)) = true := by
            have : (idx + 1) + j = idx + (j + 1) := by omega
            rw [this]
            exact hc
          obtain ⟨hsome, hused⟩ := ih (idx + 1)
            (openStreamFn bucket numVbs (rounds idx) st).1 j hkrec hcrec
          constructor
          · simp only [retryRun, hr]
            exact hsome
          · simp only [retryRun, hr]
            rw [hused]

/-- C3: rollback precedence.  If any executed fan-out attempt `k` of an
open-stream operation contains a producer response contributing a
non-empty rollback timestamp for the target bucket, the operation
reports `MsgRollback` (carrying the unioned rollback timestamp the run
accumulated), never `MsgSuccess` — regardless of transient errors or
active coverage observed in the same attempt — and the retry loop stops
with attempt `k` as its last. -/
theorem rollback_precedence (bucket : String) (numVbs : Nat)
    (rounds : Nat → List (Except String TopicResponse)) (k : Nat)
    (hk : k < (openMutationStream bucket numVbs rounds).2)
    (hc : roundContributesRollback bucket (rounds k) = true) :
    (∃ rb, (openMutationStream bucket numVbs rounds).1 = KVMsg.rollback rb) ∧
    (openMutationStream bucket numVbs rounds).1 ≠ KVMsg.success ∧
    (openMutationStream bucket numVbs rounds).2 = k + 1 := by
  have hc' : roundContributesRollback bucket (rounds (0 + k)) = true := by
    rw [Nat.zero_add]; exact hc
  obtain ⟨hsome, hused⟩ := retryRun_rollback_stop bucket numVbs rounds
    MAX_KV_REQUEST_RETRY 0 ⟨none, none⟩ k hk hc'
  obtain ⟨rb, hrb⟩ := Option.isSome_iff_exists.mp hsome
  refine ⟨⟨rb, ?_⟩, ?_, hused⟩
  · show (match (retryRun (fun i s => openStreamFn bucket numVbs (rounds i) s)
        MAX_KV_REQUEST_RETRY 0 ⟨none, none⟩).1.rollbackTs with
      | some rb => KVMsg.rollback rb
      | none =>
        match (retryRun (fun i s => openStreamFn bucket numVbs (rounds i) s)
            MAX_KV_REQUEST_RETRY 0 ⟨none, none⟩).2.1 with
        | some e => KVMsg.fatalError e
        | none => KVMsg.success) = KVMsg.rollback rb
    rw [hrb]
  · show (match (retryRun (fun i s => openStreamFn bucket numVbs (rounds i) s)
        MAX_KV_REQUEST_RETRY 0 ⟨none, none⟩).1.rollbackTs with
      | some rb => KVMsg.rollback rb
      | none =>
        match (retryRun (fun i s => openStreamFn bucket numVbs (rounds i) s)
            MAX_KV_REQUEST_RETRY 0 ⟨none, none⟩).2.1 with
        | some e => KVMsg.fatalError e
        | none => KVMsg.success) ≠ KVMsg.success
    rw [hrb]
    simp

/-- Witness for `rollback_precedence`: one producer reports a rollback
timestamp for bucket "b" in the first attempt. -/
theorem rollback_precedence_witness :
    0 < (openMutationStream "b" 1 rollbackRounds).2 ∧
    roundContributesRollback "b" (rollbackRounds 0) = true ∧
    ((∃ rb, (openMutationStream "b" 1 rollbackRounds).1 = KVMsg.rollback rb) ∧
     (openMutationStream "b" 1 rollbackRounds).1 ≠ KVMsg.success ∧
     (openMutationStream "b" 1 rollbackRounds).2 = 0 + 1) :=
  ⟨by decide, by decide, rollback_precedence "b" 1 rollbackRounds 0 (by decide) (by decide)⟩

/-! ## Topic-missing handling of the add and removal/close operations -/

/-- A fan-out round whose only producer errors are topic-missing
accumulates no error on the removal/close paths. -/
theorem removalRoundErr_none_of_allTM :
    ∀ resps : List (Option String), allTopicMissing resps = true →
      removalRoundErr resps = none := by
  have key : ∀ (resps : List (Option String)), allTopicMissing resps = true →
      resps.foldl removalFanoutStep none = none := by
    intro resps
    induction resps with
    | nil => intro _; rfl
    | cons r rest ih =>
      intro h
      rw [List.foldl_cons]
      cases r with
      | none =>
        have h2 : allTopicMissing rest = true := by
          simpa [allTopicMissing] using h
        exact ih h2
      | some e =>
        have h1 : (e == ErrorTopicMissing) = true := by
          simp only [allTopicMissing, List.all_cons, Bool.and_eq_true] at h
          exact h.1
        have h2 : allTopicMissing rest = true := by
          simp only [allTopicMissing, List.all_cons, Bool.and_eq_true] at h
          exact h.2
        have hstep : removalFanoutStep none (some e) = none := by
          simp only [removalFanoutStep]
          rw [if_pos h1]
        rw [hstep]
        exact ih h2
  intro resps h
  exact key resps h

/-- The stateless retry loop stops at the first attempt whose error is
`nil`: if attempt `idx + k` is executed and returns no error, the loop
surfaces no error and runs exactly `k + 1` attempts from `idx` on. -/
theorem retryRun_err_stop (f : Nat → Option String) :
    ∀ (budget idx k : Nat),
      k < (retryRun (fun i (_ : Unit) => ((), f i)) budget idx ()).2.2 →
      f (idx + k) = none →
      ((retryRun (fun i (_ : Unit) => ((), f i)) budget idx ()).2.1 = none ∧
       (retryRun (fun i (_ : Unit) => ((), f i)) budget idx ()).2.2 = k + 1) := by
  intro budget
  induction budget with
  | zero =>
    intro idx k hk _
    simp [retryRun] at hk
  | succ b ih =>
    intro idx k hk hf
    cases b with
    | zero =>
      simp only [retryRun] at hk ⊢
      have hk0 : k = 0 := by omega
      subst hk0
      rw [Nat.add_zero] at hf
      exact ⟨hf, rfl⟩
    | succ b' =>
      cases hr : f idx with
      | none =>
        have hused : (retryRun (fun i (_ : Unit) => ((), f i)) (b' + 2) idx ()).2.2 = 1 := by
          simp only [retryRun, hr]
        rw [hused] at hk
        have hk0 : k = 0 := by omega
        subst hk0
        constructor
        · simp only [retryRun, hr]
        · exact hused
      | some e =>
        cases k with
        | zero =>
          rw [Nat.add_zero] at hf
          rw [hf] at hr
          exact absurd hr (by simp)
        | succ j =>
          have hkrec : j < (retryRun (fun i (_ : Unit) => ((), f i)) (b' + 1) (idx + 1) ()).2.2 := by
            have : (retryRun (fun i (_ : Unit) => ((), f i)) (b' + 2) idx ()).2.2 =
                (retryRun (fun i (_ : Unit) => ((), f i)) (b' + 1) (idx + 1) ()).2.2 + 1 := by
              simp only [retryRun, hr]
            rw [this] at hk
            omega
          have hfrec : f ((idx + 1) + j) = none := by
            have : (idx + 1) + j = idx + (j + 1) := by omega
            rw [this]
            exact hf
          obtain ⟨herr, hused⟩ := ih (idx + 1) j hkrec hfrec
          constructor
          · simp only [retryRun, hr]
            exact herr
          · simp only [retryRun, hr]
            rw [hused]

/-- The stateless retry loop exhausts its budget when every attempt
errors, surfacing the final attempt's error after
`MAX_KV_REQUEST_RETRY` attempts. -/
theorem retryRunErrOnly_exhaust (f : Nat → Option String)
    (h : ∀ i, i < MAX_KV_REQUEST_RETRY → f i ≠ none) :
    retryRunErrOnly f = (f 2, MAX_KV_REQUEST_RETRY) := by
  obtain ⟨a0, h0⟩ := Option.ne_none_iff_exists'.mp (h 0 (by norm_num [MAX_KV_REQUEST_RETRY]))
  obtain ⟨a1, h1⟩ := Option.ne_none_iff_exists'.mp (h 1 (by norm_num [MAX_KV_REQUEST_RETRY]))
  obtain ⟨a2, h2⟩ := Option.ne_none_iff_exists'.mp (h 2 (by norm_num [MAX_KV_REQUEST_RETRY]))
  simp only [retryRunErrOnly, MAX_KV_REQUEST_RETRY, retryRun, h0, h1, h2]

/-- C8: a topic-missing producer error is treated as success by the
remove-indexes, remove-bucket and close-stream operations — an executed
attempt whose producer errors are all topic-missing ends the retry loop
at once with `MsgSuccess` — while on the add-indexes operation an error
(in particular a persistent topic-missing error) is retried and, once
the `MAX_KV_REQUEST_RETRY` budget is exhausted, surfaced as a FATAL
`MsgError`. -/
theorem topic_missing_idempotent_removal
    (rounds : Nat → List (Option String)) (k : Nat)
    (hk : k < (deleteIndexesFromStream rounds).2)
    (htm : allTopicMissing (rounds k) = true) :
    ((deleteIndexesFromStream rounds).1 = KVMsg.success ∧
     (deleteBucketsFromStream rounds).1 = KVMsg.success ∧
     (closeMutationStream rounds).1 = KVMsg.success ∧
     (deleteIndexesFromStream rounds).2 = k + 1) ∧
    (∀ e, (∀ i, i < MAX_KV_REQUEST_RETRY → addRoundErr (rounds i) = some e) →
      addIndexForExistingBucket rounds = (KVMsg.fatalError e, MAX_KV_REQUEST_RETRY)) := by
  constructor
  · have hf : (fun i => removalRoundErr (rounds i)) (0 + k) = none := by
      rw [Nat.zero_add]
      exact removalRoundErr_none_of_allTM (rounds k) htm
    obtain ⟨herr, hused⟩ := retryRun_err_stop (fun i => removalRoundErr (rounds i))
      MAX_KV_REQUEST_RETRY 0 k hk hf
    have hout : (retryRunErrOnly fun i => removalRoundErr (rounds i)).1 = none := herr
    refine ⟨?_, ?_, ?_, hused⟩
    · show (match (retryRunErrOnly fun i => removalRoundErr (rounds i)).1 with
        | some e => KVMsg.fatalError e
        | none => KVMsg.success) = KVMsg.success
      rw [hout]
    · show (match (retryRunErrOnly fun i => removalRoundErr (rounds i)).1 with
        | some e => KVMsg.fatalError e
        | none => KVMsg.success) = KVMsg.success
      rw [hout]
    · show (match (retryRunErrOnly fun i => removalRoundErr (rounds i)).1 with
        | some e => KVMsg.fatalError e
        | none => KVMsg.success) = KVMsg.success
      rw [hout]
  · intro e he
    have hne : ∀ i, i < MAX_KV_REQUEST_RETRY → (fun i => addRoundErr (rounds i)) i ≠ none := by
      intro i hi
      show addRoundErr (rounds i) ≠ none
      rw [he i hi]
      simp
    have hex := retryRunErrOnly_exhaust (fun i => addRoundErr (rounds i)) hne
    have h2 : addRoundErr (rounds 2) = some e := he 2 (by norm_num [MAX_KV_REQUEST_RETRY])
    show (match (retryRunErrOnly fun i => addRoundErr (rounds i)).1 with
      | some e => KVMsg.fatalError e
      | none => KVMsg.success,
      (retryRunErrOnly fun i => addRoundErr (rounds i)).2) =
      (KVMsg.fatalError e, MAX_KV_REQUEST_RETRY)
    rw [hex]
    simp [h2]

/-- Witness for `topic_missing_idempotent_removal`: every producer
reports topic-missing in every attempt. -/
theorem topic_missing_idempotent_removal_witness :
    0 < (deleteIndexesFromStream topicMissingRounds).2 ∧
    allTopicMissing (topicMissingRounds 0) = true ∧
    (((deleteIndexesFromStream topicMissingRounds).1 = KVMsg.success ∧
      (deleteBucketsFromStream topicMissingRounds).1 = KVMsg.success ∧
      (closeMutationStream topicMissingRounds).1 = KVMsg.success ∧
      (deleteIndexesFromStream topicMissingRounds).2 = 0 + 1) ∧
     (∀ e, (∀ i, i < MAX_KV_REQUEST_RETRY → addRoundErr (topicMissingRounds i) = some e) →
       addIndexForExistingBucket topicMissingRounds = (KVMsg.fatalError e, MAX_KV_REQUEST_RETRY))) :=
  ⟨by decide, by decide,
    topic_missing_idempotent_removal topicMissingRounds 0 (by decide) (by decide)⟩

end Indexing
